import Mathlib

/-!
Verification of the NAPS2 CLI wrapper (`scanner.py`) against its
natural-language specification.

The Python program is embedded shallowly: every effectful call (subprocess
launches, the filesystem, raised exceptions) is resolved through an explicit
`Env` oracle, and the functions of `scanner.py` become pure Lean functions
over that oracle.  Python strings are modelled by `String` (a list of
characters); `str.strip` / `str.split` / glob matching / `int()` are
re-implemented character by character, faithful to their Python behaviour on
the inputs the program feeds them.
-/

namespace Naps2Wrapper

/-- Whitespace test used by the model of Python `str.strip`
(space, tab, carriage return, newline). -/
def ws (c : Char) : Bool := c.isWhitespace

/-- Leading-whitespace removal on character lists (Python `lstrip`). -/
def ltrimChars (l : List Char) : List Char := l.dropWhile ws

/-- Model of Python `str.strip()`: drop leading whitespace, then trailing
whitespace (`List.rdropWhile` removes the matching suffix). -/
def stripChars (l : List Char) : List Char := (ltrimChars l).rdropWhile ws

/-- Python `s.strip()` on strings. -/
def pyStrip (s : String) : String := String.mk (stripChars s.data)

/-- Model of Python `str.split('\n')`: cut a character list at every
newline; the result always has at least one (possibly empty) piece. -/
def splitNl : List Char → List (List Char)
  | [] => [[]]
  | c :: cs =>
    if c = '\n' then [] :: splitNl cs
    else
      match splitNl cs with
      | [] => [[c]]
      | line :: rest => (c :: line) :: rest

/-- Python `s.split('\n')[0]`: the characters before the first newline. -/
def firstLineStr (s : String) : String :=
  String.mk (s.data.takeWhile (fun c => c != '\n'))

/-- Model of Python `str.lower()` (ASCII lowering, enough for the format
strings the argument parser admits). -/
def pyLower (s : String) : String := String.mk (s.data.map Char.toLower)

/-- `listStartsWith s pat` is true when `pat` is a prefix of `s`. -/
def listStartsWith : List Char → List Char → Bool
  | _, [] => true
  | [], _ :: _ => false
  | a :: as, b :: bs => if a = b then listStartsWith as bs else false

/-- `charsContain s pat` is true when `pat` occurs contiguously in `s`. -/
def charsContain : List Char → List Char → Bool
  | [], pat => pat.isEmpty
  | a :: as, pat => listStartsWith (a :: as) pat || charsContain as pat

/-- Substring occurrence on strings. -/
def strContains (s pat : String) : Bool := charsContain s.data pat.data

/-- Suffix test on strings. -/
def strEndsWith (s t : String) : Bool :=
  listStartsWith s.data.reverse t.data.reverse

/-- Fuel-driven glob matcher: `*` matches any character sequence, every
other pattern character matches itself.  This is the fragment of
`fnmatch`/`pathlib.Path.glob` semantics exercised by the patterns
`<prefix>*.<format>` that `scanner.py` builds. -/
def globGo : Nat → List Char → List Char → Bool
  | 0, _, _ => false
  | _ + 1, [], name => name.isEmpty
  | fuel + 1, p :: ps, name =>
    if p = '*' then
      globGo fuel ps name ||
        (match name with
         | [] => false
         | _ :: ns => globGo fuel (p :: ps) ns)
    else
      match name with
      | [] => false
      | n :: ns => if p = n then globGo fuel ps ns else false

/-- Glob matching with enough fuel to be total (each step consumes at least
one pattern or name character). -/
def globMatchP (pat name : List Char) : Bool :=
  globGo (pat.length + name.length + 1) pat name

/-- Decimal digit run evaluated to a number, `none` when empty or when a
non-digit appears (the failure case of Python `int()`). -/
def digitsVal : List Char → Option Nat
  | [] => none
  | l =>
    if l.all Char.isDigit then
      some (l.foldl (fun acc c => acc * 10 + (c.toNat - 48)) 0)
    else none

/-- Model of Python `int(s)` on an optionally signed decimal literal (the
shape of any `--dpi` token the shell hands to `argparse`). -/
def parseIntLit (s : String) : Option Int :=
  match s.data with
  | '-' :: rest => (digitsVal rest).map (fun n => -(n : Int))
  | '+' :: rest => (digitsVal rest).map (fun n => (n : Int))
  | l => (digitsVal l).map (fun n => (n : Int))

/-- Embedding of the `--dpi` handling of `create_argument_parser`
(scanner.py lines 88-93): `type=int`, `default=300`, and no further
validation.  `none` models an invocation without the flag; `some s` an
invocation supplying token `s`; the result is `none` exactly when
`argparse` rejects the invocation. -/
def dpi_arg_value : Option String → Option Int
  | none => some 300
  | some s => parseIntLit s

/-- A directory entry: file name and size in bytes. -/
structure FileEntry where
  name : String
  size : Nat
deriving DecidableEq

/-- The arguments of `scan_with_naps2` (scanner.py lines 124-133).  The
source parameter `file_prefix` is called `file_pfx` here. -/
structure ScanArgs where
  output_folder : String
  file_pfx : String
  file_format : String
  dpi : Int
  color_mode : String
  source : String
  device_name : Option String
  driver : String

/-- Oracle for every effect `scan_with_naps2` performs.  `Option String`
fields inject an exception message at the corresponding call site
(`none` = the call does not raise); exit codes and captured output of the
child processes are given directly; `folderAfter` is the contents of the
output folder once the scan process has terminated (`none` = the folder
does not exist at that point). -/
structure Env where
  mkdirError : Option String
  availError : Option String
  availExit : Int
  listError : Option String
  listExit : Int
  listStdout : String
  scanLaunchError : Option String
  scanStdoutLines : List String
  scanStderrLines : List String
  scanExit : Int
  folderAfter : Option (List FileEntry)

/-- External commands the wrapper can launch. -/
inductive Cmd where
  | version : Cmd
  | listdevices (driver : String) : Cmd
  | scan (args : List String) : Cmd
deriving DecidableEq

/-- Events of the subprocess-execution phase (scanner.py lines 199-220). -/
inductive ScanEvent where
  | procStart : ScanEvent
  | readerStart (tag : String) : ScanEvent
  | readerJoin (tag : String) : ScanEvent
  | exitCollected (code : Int) : ScanEvent
deriving DecidableEq

/-- Embedding of `is_naps2_available` (scanner.py lines 240-256): launch
`NAPS2.Console --version`; a `FileNotFoundError`/`OSError` is caught and
yields `False`; otherwise the result is `exit_code == 0`. -/
def is_naps2_available (env : Env) : Bool :=
  match env.availError with
  | some _ => false
  | none => env.availExit == 0

/-- Embedding of `get_scanner_device` (scanner.py lines 259-287): run
`NAPS2.Console --driver <driver> --listdevices`; on exit code 0 with
non-empty stdout, strip the output, and if anything remains return the
first line, stripped; every other path (including a raised exception,
which the function catches itself) yields `None`. -/
def get_scanner_device (env : Env) (driver : String) : Option String :=
  match env.listError with
  | some _ => none
  | none =>
    if env.listExit == 0 && !(env.listStdout == "") then
      let output := pyStrip env.listStdout
      if !(output == "") then some (pyStrip (firstLineStr output))
      else none
    else none

/-- Embedding of the output-path construction (scanner.py lines 172-176):
`<folder>/<prefix>.<format>` when the lowered format is `pdf`, otherwise
the multi-page pattern `<folder>/<prefix>_$(nnnn).<format>`. -/
def build_output_path (output_folder file_pfx file_format : String) : String :=
  if pyLower file_format = ("pdf") then
    output_folder ++ "/" ++ (file_pfx ++ "." ++ file_format)
  else
    output_folder ++ "/" ++ (file_pfx ++ "_$(nnnn)." ++ file_format)

/-- The NAPS2 command line built at scanner.py lines 179-188. -/
def naps2Args (a : ScanArgs) (dev : String) : List String :=
  [("NAPS2.Console"), "--driver", a.driver, "--device", dev,
   "--source", a.source, "--dpi", toString a.dpi,
   "--bitdepth", a.color_mode,
   "--output", build_output_path a.output_folder a.file_pfx a.file_format,
   "--verbose"]

/-- `folder.glob(search_pattern)` over a modelled directory listing. -/
def globFiles (entries : List FileEntry) (search_pattern : String) :
    List FileEntry :=
  entries.filter (fun f => globMatchP search_pattern.data f.name.data)

/-- Embedding of `check_for_scanned_files` (scanner.py lines 290-313):
`False` when the folder does not exist, otherwise whether the glob
`<prefix>*.<format>` matches at least one entry. -/
def check_for_scanned_files (folderContents : Option (List FileEntry))
    (file_pfx file_format : String) : Bool :=
  match folderContents with
  | none => false
  | some entries =>
    let search_pattern := file_pfx ++ "*." ++ file_format
    decide (0 < (globFiles entries search_pattern).length)

/-- Sorting relation used to model Python `sorted(files)` for paths inside
one directory: compare file names. -/
def fileLe (a b : FileEntry) : Prop := a.name ≤ b.name

instance : DecidableRel fileLe :=
  fun a b => inferInstanceAs (Decidable (a.name ≤ b.name))

instance : IsTotal FileEntry fileLe := ⟨fun a b => le_total a.name b.name⟩

instance : IsTrans FileEntry fileLe := ⟨fun _ _ _ h1 h2 => le_trans h1 h2⟩

/-- Embedding of `show_scan_results` (scanner.py lines 316-339) as the list
of printed (name, size-in-KB) rows: glob the folder with
`<prefix>*.<format>`, sort by name, report `st_size // 1024` for each. -/
def show_scan_results (folderContents : Option (List FileEntry))
    (file_pfx file_format : String) : List (String × Nat) :=
  let search_pattern := file_pfx ++ "*." ++ file_format
  let files := globFiles (folderContents.getD []) search_pattern
  (List.insertionSort fileLe files).map (fun f => (f.name, f.size / 1024))

/-- Embedding of the stream-reader coroutine `read_output` (scanner.py
lines 206-211; its source parameter `prefix` is called `tag` here): echo
every line of the stream, stripped and tagged with its origin. -/
def read_output (stream : List String) (tag : String) : List String :=
  stream.map (fun line => tag ++ ": " ++ pyStrip line)

/-- Event trace of scanner.py lines 199-220: the child process is spawned,
`asyncio.gather` starts one reader task per stream ("NAPS2" for stdout,
"ERROR" for stderr) and returns only once both have finished, and only
then does `process.wait()` collect the exit code.  The two join events are
recorded in a fixed representative order; the claims proved about the
trace do not depend on the order within the gather. -/
def executeScanTrace (env : Env) : List ScanEvent :=
  [ScanEvent.procStart,
   ScanEvent.readerStart ("NAPS2"), ScanEvent.readerStart ("ERROR"),
   ScanEvent.readerJoin ("NAPS2"), ScanEvent.readerJoin ("ERROR"),
   ScanEvent.exitCollected env.scanExit]

/-- The scan-execution tail of `scan_with_naps2` (scanner.py lines
199-233), entered once a device name is at hand: launch the NAPS2 process
(a raised launch exception escapes to the top-level handler), then derive
the outcome as `has_files or exit_code == 0`. -/
def runScanPhase (env : Env) (a : ScanArgs) (dev : String)
    (cmds : List Cmd) : Except String Bool × List Cmd :=
  match env.scanLaunchError with
  | some e => (Except.error e, cmds ++ [Cmd.scan (naps2Args a dev)])
  | none =>
    let has_files :=
      check_for_scanned_files env.folderAfter a.file_pfx a.file_format
    (Except.ok (has_files || env.scanExit == 0),
     cmds ++ [Cmd.scan (naps2Args a dev)])

/-- The `try`-block body of `scan_with_naps2` (scanner.py lines 150-233).
The first component is the outcome (`Except.error` = an exception reached
the top-level handler), the second the external commands launched, in
order. -/
def scanBody (env : Env) (a : ScanArgs) : Except String Bool × List Cmd :=
  match env.mkdirError with
  | some e => (Except.error e, [])
  | none =>
    if is_naps2_available env then
      match a.device_name with
      | some dev => runScanPhase env a dev [Cmd.version]
      | none =>
        match get_scanner_device env a.driver with
        | none => (Except.ok false, [Cmd.version, Cmd.listdevices a.driver])
        | some dev =>
          runScanPhase env a dev [Cmd.version, Cmd.listdevices a.driver]
    else (Except.ok false, [Cmd.version])

/-- Embedding of `scan_with_naps2` (scanner.py lines 124-237): the body
wrapped in `try/except Exception`, which maps any escaped exception to the
boolean failure outcome `False`. -/
def scan_with_naps2 (env : Env) (a : ScanArgs) : Bool × List Cmd :=
  match scanBody env a with
  | (Except.ok b, cmds) => (b, cmds)
  | (Except.error _, cmds) => (false, cmds)

/-- A line consisting of whitespace only. -/
def isBlankLine (line : List Char) : Bool := line.all ws

/-- Modelled from the spec: device resolution "capture its output, and
take the first non-empty line as the device name", failing when the tool
"reports a non-zero exit code" or "listing returns no usable line".  A
line is "non-empty" when it has any non-whitespace character, and the line
is taken stripped of surrounding whitespace (the spec elsewhere requires
the returned name to carry no surrounding whitespace). -/
def resolveDeviceSpec (exitCode : Int) (stdout : String) : Option String :=
  if exitCode = 0 then
    ((splitNl stdout.data).find? (fun line => !(isBlankLine line))).map
      (fun line => String.mk (stripChars line))
  else none

/-! ### Concrete sample environments and arguments (used by witnesses) -/

/-- The default arguments of the CLI with automatic device detection. -/
def argsAuto : ScanArgs :=
  { output_folder := "scanned_pages", file_pfx := "page",
    file_format := "png", dpi := 300, color_mode := "color",
    source := "feeder", device_name := none, driver := "wia" }

/-- The default arguments with an explicit device. -/
def argsDev : ScanArgs := { argsAuto with device_name := some ("dev") }

/-- A benign environment: everything succeeds, no output yet. -/
def envBase : Env :=
  { mkdirError := none, availError := none, availExit := 0,
    listError := none, listExit := 0, listStdout := "",
    scanLaunchError := none, scanStdoutLines := [], scanStderrLines := [],
    scanExit := 0, folderAfter := none }

/-- Scan process exits nonzero but a matching file was produced. -/
def envFileNonzero : Env :=
  { envBase with
    scanExit := 1,
    folderAfter := some [{ name := "page_0001.png", size := 2048 }] }

/-- The availability probe exits nonzero. -/
def envUnavailable : Env := { envBase with availExit := 1 }

/-- The device-listing probe exits nonzero. -/
def envNoDevice : Env := { envBase with listExit := 1 }

/-- A device listing with surrounding whitespace and two lines. -/
def envListSample : Env :=
  { envBase with listStdout := "  dev one \nsecond" }

/-- Creating the output folder raises an exception. -/
def envMkdirBoom : Env := { envBase with mkdirError := some ("boom") }

/-! ### Helper lemmas about the string model -/

theorem ws_newline : ws '\n' = true := by decide

theorem not_ws_ne_newline {c : Char} (h : ws c = false) : (c != '\n') = true := by
  rcases eq_or_ne c '\n' with rfl | hne
  · exact absurd h (by decide)
  · simpa using hne

theorem dropWhile_head_not {p : Char → Bool} {l : List Char} {a : Char}
    {as : List Char} (h : l.dropWhile p = a :: as) : p a = false := by
  induction l with
  | nil => simp at h
  | cons b bs ih =>
    rw [List.dropWhile_cons] at h
    split at h
    · exact ih h
    · next hb =>
      cases h
      simpa using hb

theorem mem_dropWhile_of_not {p : Char → Bool} {l : List Char} {x : Char}
    (hx : x ∈ l) (hp : p x = false) : x ∈ l.dropWhile p := by
  induction l with
  | nil => simp at hx
  | cons b bs ih =>
    rw [List.dropWhile_cons]
    split
    · next hb =>
      rcases List.mem_cons.mp hx with rfl | hx'
      · rw [hb] at hp; cases hp
      · exact ih hx'
    · exact hx

theorem rdropWhile_decomp (x : List Char) :
    ∃ w, x = x.rdropWhile ws ++ w ∧ ∀ c ∈ w, ws c = true := by
  refine ⟨(x.reverse.takeWhile ws).reverse, ?_, ?_⟩
  · conv_lhs => rw [← List.reverse_reverse x, ← List.takeWhile_append_dropWhile ws x.reverse]
    rw [List.reverse_append, List.rdropWhile]
  · intro c hc
    exact List.mem_takeWhile_imp (List.mem_reverse.mp hc)

theorem rdropWhile_append_ws {y w : List Char} (hw : ∀ c ∈ w, ws c = true) :
    (y ++ w).rdropWhile ws = y.rdropWhile ws := by
  rw [List.rdropWhile, List.rdropWhile, List.reverse_append,
    List.dropWhile_append_of_pos (by intro a ha; exact hw a (List.mem_reverse.mp ha))]

theorem stripChars_cons_ws {c : Char} {l : List Char} (hc : ws c = true) :
    stripChars (c :: l) = stripChars l := by
  rw [stripChars, stripChars, ltrimChars, ltrimChars, List.dropWhile_cons, if_pos hc]

theorem stripChars_cons_not_ws {c : Char} {l : List Char} (hc : ws c = false) :
    stripChars (c :: l) = (c :: l).rdropWhile ws := by
  rw [stripChars, ltrimChars, List.dropWhile_cons, if_neg (by simp [hc])]

theorem stripChars_eq_nil_iff {l : List Char} :
    stripChars l = [] ↔ ∀ c ∈ l, ws c = true := by
  rw [stripChars, List.rdropWhile_eq_nil_iff]
  constructor
  · intro h c hc
    by_contra hcw
    have hf : ws c = false := by simpa using hcw
    exact absurd (h c (mem_dropWhile_of_not hc hf)) (by simp [hf])
  · intro h c hc
    exact h c ((List.dropWhile_sublist ws).mem hc)

theorem stripChars_head_not_ws {l : List Char} {c : Char} {cs : List Char}
    (h : stripChars l = c :: cs) : ws c = false := by
  obtain ⟨w, hw, _⟩ := rdropWhile_decomp (ltrimChars l)
  rw [stripChars] at h
  rw [h] at hw
  exact dropWhile_head_not (p := ws) (l := l) hw

theorem stripChars_last_not_ws {l : List Char} {c : Char}
    (h : (stripChars l).getLast? = some c) : ws c = false := by
  have hne : stripChars l ≠ [] := by
    intro hnil; rw [hnil] at h; simp at h
  rw [stripChars] at h hne
  have hlast := List.rdropWhile_last_not ws (ltrimChars l) hne
  rw [List.getLast?_eq_getLast _ hne] at h
  cases h
  simpa using hlast

theorem stripChars_ne_nil {l : List Char} {c : Char} (hc : c ∈ l)
    (hw : ws c = false) : stripChars l ≠ [] := by
  intro hnil
  have := stripChars_eq_nil_iff.mp hnil c hc
  rw [this] at hw
  cases hw

theorem stripChars_append_ws {y w : List Char} (hw : ∀ c ∈ w, ws c = true) :
    stripChars (y ++ w) = stripChars y := by
  rcases hy : ltrimChars y with _ | ⟨a, as⟩
  · have hyws : ∀ c ∈ y, ws c = true := by
      rw [ltrimChars, List.dropWhile_eq_nil_iff] at hy
      exact hy
    have h1 : ltrimChars (y ++ w) = [] := by
      rw [ltrimChars, List.dropWhile_eq_nil_iff]
      intro x hx
      rcases List.mem_append.mp hx with h | h
      · exact hyws x h
      · exact hw x h
    rw [stripChars, stripChars, h1, hy]
  · have h1 : ltrimChars (y ++ w) = ltrimChars y ++ w := by
      rw [ltrimChars, ltrimChars, List.dropWhile_append]
      rw [ltrimChars] at hy
      simp [hy]
    rw [stripChars, stripChars, h1, rdropWhile_append_ws hw]

theorem stripChars_takeWhile_rdrop (x : List Char) :
    stripChars ((x.rdropWhile ws).takeWhile (fun c => c != '\n')) =
      stripChars (x.takeWhile (fun c => c != '\n')) := by
  obtain ⟨w, hx, hw⟩ := rdropWhile_decomp x
  conv_rhs => rw [hx]
  rw [List.takeWhile_append]
  split
  · next hlen =>
    have heq : (x.rdropWhile ws).takeWhile (fun c => c != '\n') = x.rdropWhile ws :=
      (List.takeWhile_sublist _).eq_of_length hlen
    rw [heq, stripChars_append_ws]
    intro c hc
    exact hw c ((List.takeWhile_sublist _).mem hc)
  · rfl

theorem splitNl_eq_cons (l : List Char) :
    ∃ rest, splitNl l = l.takeWhile (fun c => c != '\n') :: rest := by
  induction l with
  | nil => exact ⟨[], rfl⟩
  | cons c cs ih =>
    obtain ⟨rest, hrest⟩ := ih
    by_cases hc : c = '\n'
    · subst hc
      refine ⟨splitNl cs, ?_⟩
      rw [splitNl, if_pos rfl, List.takeWhile_cons]
      simp
    · refine ⟨rest, ?_⟩
      rw [splitNl, if_neg hc, hrest, List.takeWhile_cons]
      simp [hc]

theorem mem_splitNl_subset {l m : List Char} (hm : m ∈ splitNl l) {c : Char}
    (hc : c ∈ m) : c ∈ l := by
  induction l generalizing m with
  | nil =>
    rw [splitNl] at hm
    rcases List.mem_singleton.mp hm with rfl
    simp at hc
  | cons a as ih =>
    rw [splitNl] at hm
    split at hm
    · rcases List.mem_cons.mp hm with rfl | hm'
      · simp at hc
      · exact List.mem_cons_of_mem _ (ih hm' hc)
    · rcases hsp : splitNl as with _ | ⟨l0, rest⟩
      · rw [hsp] at hm
        rcases List.mem_singleton.mp hm with rfl
        rcases List.mem_singleton.mp hc with rfl
        exact List.mem_cons_self _ _
      · rw [hsp] at hm
        have hsub : ∀ m2 ∈ splitNl as, c ∈ m2 → c ∈ as := fun m2 h1 h2 => ih h1 h2
        rcases List.mem_cons.mp hm with rfl | hm'
        · rcases List.mem_cons.mp hc with rfl | hc'
          · exact List.mem_cons_self _ _
          · have hcas : c ∈ as :=
              hsub l0 (by rw [hsp]; exact List.mem_cons_self _ _) hc'
            exact List.mem_cons_of_mem _ hcas
        · have hcas : c ∈ as :=
            hsub m (by rw [hsp]; exact List.mem_cons_of_mem _ hm') hc
          exact List.mem_cons_of_mem _ hcas

theorem splitNl_find_strip (l : List Char) (h : ∃ c ∈ l, ws c = false) :
    ∃ m, (splitNl l).find? (fun x => !(isBlankLine x)) = some m ∧
      stripChars ((stripChars l).takeWhile (fun c => c != '\n')) = stripChars m := by
  induction l with
  | nil => simp at h
  | cons c cs ih =>
    by_cases hc : ws c = true
    · have hcs : ∃ d ∈ cs, ws d = false := by
        obtain ⟨d, hd, hdw⟩ := h
        rcases List.mem_cons.mp hd with rfl | hd'
        · rw [hc] at hdw; cases hdw
        · exact ⟨d, hd', hdw⟩
      by_cases hnl : c = '\n'
      · subst hnl
        obtain ⟨m, hm1, hm2⟩ := ih hcs
        refine ⟨m, ?_, ?_⟩
        · rw [splitNl, if_pos rfl,
            List.find?_cons_of_neg _ (by simp [isBlankLine])]
          exact hm1
        · rw [stripChars_cons_ws hc]
          exact hm2
      · obtain ⟨rest, hrest⟩ := splitNl_eq_cons cs
        have hstep : splitNl (c :: cs) =
            (c :: cs.takeWhile (fun x => x != '\n')) :: rest := by
          rw [splitNl, if_neg hnl, hrest]
        by_cases hb : isBlankLine (cs.takeWhile (fun x => x != '\n')) = true
        · obtain ⟨m, hm1, hm2⟩ := ih hcs
          rw [hrest] at hm1
          refine ⟨m, ?_, ?_⟩
          · rw [hstep,
              List.find?_cons_of_neg _ (by simp [isBlankLine, hc]; simpa [isBlankLine] using hb)]
            rw [List.find?_cons_of_neg _ (by simpa [isBlankLine] using hb)] at hm1
            exact hm1
          · rw [stripChars_cons_ws hc]
            exact hm2
        · obtain ⟨m, hm1, hm2⟩ := ih hcs
          rw [hrest] at hm1
          rw [List.find?_cons_of_pos _ (by simpa [isBlankLine] using hb)] at hm1
          have hml : cs.takeWhile (fun x => x != '\n') = m := Option.some.inj hm1
          refine ⟨c :: cs.takeWhile (fun x => x != '\n'), ?_, ?_⟩
          · rw [hstep, List.find?_cons_of_pos]
            simp only [isBlankLine, List.all_cons, Bool.not_eq_true']
            simp [isBlankLine] at hb
            simp [hb]
          · rw [stripChars_cons_ws hc, stripChars_cons_ws hc, hml]
            exact hm2
    · have hcw : ws c = false := by simpa using hc
      have hq : (c != '\n') = true := not_ws_ne_newline hcw
      have hnl : c ≠ '\n' := by
        intro hh; rw [hh] at hcw; exact absurd hcw (by decide)
      obtain ⟨rest, hrest⟩ := splitNl_eq_cons cs
      have hstep : splitNl (c :: cs) =
          (c :: cs.takeWhile (fun x => x != '\n')) :: rest := by
        rw [splitNl, if_neg hnl, hrest]
      refine ⟨c :: cs.takeWhile (fun x => x != '\n'), ?_, ?_⟩
      · rw [hstep, List.find?_cons_of_pos]
        simp [isBlankLine, hcw]
      · have htw : List.takeWhile (fun x => x != '\n') (c :: cs) =
            c :: List.takeWhile (fun x => x != '\n') cs :=
          @List.takeWhile_cons_of_pos Char (fun x => x != '\n') c cs hq
        rw [stripChars_cons_not_ws hcw, stripChars_takeWhile_rdrop (c :: cs), htw]

theorem splitNl_find_none {l : List Char} (h : ∀ c ∈ l, ws c = true) :
    (splitNl l).find? (fun x => !(isBlankLine x)) = none := by
  rw [List.find?_eq_none]
  intro x hx
  have hbl : x.all ws = true := by
    rw [List.all_eq_true]
    intro c hc
    exact h c (mem_splitNl_subset hx hc)
  simp [isBlankLine, hbl]

theorem get_scanner_device_eq_spec (env : Env) (driver : String)
    (hle : env.listError = none) :
    get_scanner_device env driver =
      resolveDeviceSpec env.listExit env.listStdout := by
  simp only [get_scanner_device, hle]
  by_cases hexit : env.listExit = 0
  · by_cases hall : ∀ c ∈ env.listStdout.data, ws c = true
    · rw [resolveDeviceSpec, if_pos hexit, splitNl_find_none hall]
      by_cases hsd : env.listStdout = ""
      · have hcond : (env.listExit == 0 && !(env.listStdout == "")) = false := by
          simp [hsd]
        simp [hcond]
      · have hcond : (env.listExit == 0 && !(env.listStdout == "")) = true := by
          simp [hexit, hsd]
        have hout : pyStrip env.listStdout = "" := by
          rw [pyStrip, stripChars_eq_nil_iff.mpr hall]
        simp [hcond, hout]
    · have hex : ∃ c ∈ env.listStdout.data, ws c = false := by
        push_neg at hall
        obtain ⟨c, hcmem, hcw⟩ := hall
        exact ⟨c, hcmem, by simpa using hcw⟩
      obtain ⟨m, hm1, hm2⟩ := splitNl_find_strip env.listStdout.data hex
      have hsd : env.listStdout ≠ "" := by
        obtain ⟨c, hcmem, _⟩ := hex
        intro hh
        rw [hh] at hcmem
        rw [show ("" : String).data = [] from rfl] at hcmem
        simp at hcmem
      have hcond : (env.listExit == 0 && !(env.listStdout == "")) = true := by
        simp [hexit, hsd]
      have houtne : pyStrip env.listStdout ≠ "" := by
        rw [pyStrip]
        intro hh
        have hnil : stripChars env.listStdout.data = [] := by
          simpa using congrArg String.data hh
        obtain ⟨c, hcmem, hcw⟩ := hex
        exact stripChars_ne_nil hcmem hcw hnil
      rw [resolveDeviceSpec, if_pos hexit, hm1]
      rw [if_pos hcond, if_pos (by simpa using houtne)]
      rw [Option.map_some']
      refine congrArg some ?_
      rw [pyStrip, firstLineStr, pyStrip]
      exact congrArg String.mk hm2
  · have hcond : (env.listExit == 0) = false := by simp [hexit]
    rw [resolveDeviceSpec, if_neg hexit]
    simp [hcond]

theorem check_for_scanned_files_iff (fc : Option (List FileEntry))
    (pfx fmt : String) :
    check_for_scanned_files fc pfx fmt = true ↔
      ∃ entries, fc = some entries ∧ ∃ f ∈ entries,
        globMatchP (pfx ++ "*." ++ fmt).data f.name.data = true := by
  cases fc with
  | none => simp [check_for_scanned_files]
  | some entries =>
    simp [check_for_scanned_files, globFiles, List.length_pos_iff_exists_mem,
      List.mem_filter]

theorem listStartsWith_append (u v : List Char) :
    listStartsWith (u ++ v) u = true := by
  induction u with
  | nil => cases v <;> rfl
  | cons a as ih => simp [listStartsWith, ih]

theorem strEndsWith_intro (s t : String) (z : List Char)
    (h : s.data = z ++ t.data) : strEndsWith s t = true := by
  rw [strEndsWith, h, List.reverse_append]
  exact listStartsWith_append _ _

theorem charsContain_append_left (a : List Char) {b pat : List Char}
    (h : charsContain b pat = true) : charsContain (a ++ b) pat = true := by
  induction a with
  | nil => simpa using h
  | cons x xs ih => simp [charsContain, ih]

theorem charsContain_head {s pat : List Char} {c : Char}
    (h : charsContain s (c :: pat) = true) : c ∈ s := by
  induction s with
  | nil => simp [charsContain] at h
  | cons a as ih =>
    rw [charsContain, Bool.or_eq_true] at h
    rcases h with h | h
    · by_cases hac : a = c
      · rw [hac]; exact List.mem_cons_self _ _
      · rw [listStartsWith, if_neg (by intro hh; exact hac hh)] at h
        cases h
    · exact List.mem_cons_of_mem _ (ih h)

/-! ### Claim theorems -/

/-- Claim C1: for every completed scan run (output folder created, tool
available, a device at hand, scan process launched and awaited), the run
is reported successful iff the child exit code is zero or at least one
file matching `<prefix>*.<format>` exists in the output folder after the
process terminates; it is reported failed only when both signals are
negative.  In particular a nonzero exit code with a matching file is a
success, and a zero exit code without files is a success. -/
theorem scan_success_iff_exit_or_files (env : Env) (a : ScanArgs)
    (dev : String)
    (hmk : env.mkdirError = none)
    (hav : is_naps2_available env = true)
    (hdev : a.device_name = some dev ∨
      (a.device_name = none ∧ get_scanner_device env a.driver = some dev))
    (hlaunch : env.scanLaunchError = none) :
    (scan_with_naps2 env a).1 = true ↔
      (env.scanExit = 0 ∨ ∃ entries, env.folderAfter = some entries ∧
        ∃ f ∈ entries,
          globMatchP (a.file_pfx ++ "*." ++ a.file_format).data
            f.name.data = true) := by
  have hrun : (scan_with_naps2 env a).1 =
      (check_for_scanned_files env.folderAfter a.file_pfx a.file_format
        || env.scanExit == 0) := by
    rcases hdev with hd | ⟨hd1, hd2⟩
    · simp [scan_with_naps2, scanBody, hmk, hav, hd, runScanPhase, hlaunch]
    · simp [scan_with_naps2, scanBody, hmk, hav, hd1, hd2, runScanPhase,
        hlaunch]
  rw [hrun, Bool.or_eq_true, beq_iff_eq, check_for_scanned_files_iff]
  exact or_comm

/-- Witness for C1: exit code 1 but `page_0001.png` matches `page*.png`,
so the run is reported successful. -/
theorem scan_success_iff_exit_or_files_witness :
    (scan_with_naps2 envFileNonzero argsDev).1 = true :=
  (scan_success_iff_exit_or_files envFileNonzero argsDev ("dev") rfl rfl
    (Or.inl rfl) rfl).mpr
    (Or.inr ⟨[{ name := "page_0001.png", size := 2048 }], rfl,
      ⟨{ name := "page_0001.png", size := 2048 }, List.mem_cons_self _ _,
        by decide⟩⟩)

/-- Claim C3: when no device is given, device resolution returns exactly
what the spec describes (the first non-empty line of the listing output,
as the device name), and when resolution yields no device — the listing
exits nonzero or returns no usable line — the scan is not attempted: the
operation returns failure having launched only the version probe and the
listing command. -/
theorem device_resolution_spec (env : Env) (a : ScanArgs)
    (hmk : env.mkdirError = none)
    (hav : is_naps2_available env = true)
    (hdev : a.device_name = none)
    (hle : env.listError = none) :
    get_scanner_device env a.driver =
      resolveDeviceSpec env.listExit env.listStdout
    ∧ (get_scanner_device env a.driver = none →
        scan_with_naps2 env a =
          (false, [Cmd.version, Cmd.listdevices a.driver])) := by
  refine ⟨get_scanner_device_eq_spec env a.driver hle, ?_⟩
  intro hnone
  simp [scan_with_naps2, scanBody, hmk, hav, hdev, hnone]

/-- Witness for C3: the listing probe exits nonzero; no device is found
and the scan command is never launched. -/
theorem device_resolution_spec_witness :
    scan_with_naps2 envNoDevice argsAuto =
      (false, [Cmd.version, Cmd.listdevices ("wia")]) :=
  (device_resolution_spec envNoDevice argsAuto rfl rfl rfl rfl).2 rfl

/-- Claim C4: if the availability probe cannot locate the executable or
exits nonzero, the scan operation reports failure right away: the only
external command launched is the version query — no device listing and no
scan command. -/
theorem availability_gate (env : Env) (a : ScanArgs)
    (hmk : env.mkdirError = none)
    (hfail : env.availError ≠ none ∨ env.availExit ≠ 0) :
    is_naps2_available env = false
    ∧ scan_with_naps2 env a = (false, [Cmd.version])
    ∧ (∀ args, Cmd.scan args ∉ (scan_with_naps2 env a).2)
    ∧ (∀ d, Cmd.listdevices d ∉ (scan_with_naps2 env a).2) := by
  have hna : is_naps2_available env = false := by
    cases henv : env.availError with
    | some e => simp [is_naps2_available, henv]
    | none =>
      rcases hfail with h | h
      · exact absurd henv h
      · simp [is_naps2_available, henv, h]
  have hrun : scan_with_naps2 env a = (false, [Cmd.version]) := by
    simp [scan_with_naps2, scanBody, hmk, hna]
  refine ⟨hna, hrun, ?_, ?_⟩ <;> intro x <;> rw [hrun] <;> simp

/-- Witness for C4: the probe exits 1; only the version command runs. -/
theorem availability_gate_witness :
    scan_with_naps2 envUnavailable argsAuto = (false, [Cmd.version]) :=
  (availability_gate envUnavailable argsAuto rfl (Or.inr (by decide))).2.1

/-- Claim C6: every exception raised inside the body of the scan
operation reaches its top-level handler and is mapped to the boolean
failure outcome, and a normal completion is returned unchanged — by
construction `scan_with_naps2` always returns a boolean, so no exception
propagates to the caller. -/
theorem scan_catches_all_errors (env : Env) (a : ScanArgs) :
    (∀ e, (scanBody env a).1 = Except.error e →
      (scan_with_naps2 env a).1 = false)
    ∧ (∀ b, (scanBody env a).1 = Except.ok b →
      (scan_with_naps2 env a).1 = b) := by
  rcases hb : scanBody env a with ⟨r, cmds⟩
  cases r with
  | ok b =>
    refine ⟨fun e he => ?_, fun b2 hb2 => ?_⟩
    · simp at he
    · simp only [Except.ok.injEq] at hb2
      subst hb2
      simp [scan_with_naps2, hb]
  | error e0 =>
    refine ⟨fun e he => ?_, fun b2 hb2 => ?_⟩
    · simp [scan_with_naps2, hb]
    · simp at hb2

/-- Witness for C6: the folder-creation step raises; the operation
returns the failure boolean instead of propagating. -/
theorem scan_catches_all_errors_witness :
    (scan_with_naps2 envMkdirBoom argsAuto).1 = false :=
  (scan_catches_all_errors envMkdirBoom argsAuto).1 ("boom") rfl

/-- Claim C2: the output path for format `pdf` is the single-file path
`<folder>/<prefix>.pdf` — ending in `.pdf` and containing no page-number
placeholder (granted the folder and prefix do not themselves carry a `$`,
the placeholder's opening character) — while for every other accepted
format the constructed pattern contains the placeholder `$(nnnn)` and
ends in `.<format>`. -/
theorem build_output_path_spec (folder pfx : String) :
    (build_output_path folder pfx ("pdf") =
        folder ++ "/" ++ (pfx ++ "." ++ "pdf")
      ∧ strEndsWith (build_output_path folder pfx ("pdf")) (".pdf") = true
      ∧ ('$' ∉ folder.data → '$' ∉ pfx.data →
          strContains (build_output_path folder pfx ("pdf")) ("$(nnnn)") =
            false))
    ∧ ∀ fmt ∈ (["png", "jpg", "jpeg", "tiff", "bmp"] : List String),
        strContains (build_output_path folder pfx fmt) ("$(nnnn)") = true
        ∧ strEndsWith (build_output_path folder pfx fmt) ("." ++ fmt) =
            true := by
  have hpdf : build_output_path folder pfx ("pdf") =
      folder ++ "/" ++ (pfx ++ "." ++ "pdf") := by
    rw [build_output_path, if_pos (by decide)]
  constructor
  · refine ⟨hpdf, ?_, ?_⟩
    · have hre : build_output_path folder pfx ("pdf") =
          (folder ++ "/" ++ pfx) ++ (".pdf") := by
        rw [hpdf, show (".pdf" : String) = "." ++ "pdf" from rfl]
        simp [String.append_assoc]
      refine strEndsWith_intro _ _ ((folder ++ "/" ++ pfx).data) ?_
      rw [hre, String.data_append]
    · intro hf hp
      by_contra hcon
      have hcon2 : strContains (build_output_path folder pfx ("pdf"))
          ("$(nnnn)") = true := by
        simpa using hcon
      have h2 : charsContain (build_output_path folder pfx ("pdf")).data
          ('$' :: ("(nnnn)" : String).data) = true := by
        simpa [strContains] using hcon2
      have hmem := charsContain_head h2
      rw [hpdf] at hmem
      simp only [String.data_append, List.mem_append] at hmem
      have hA : ¬ ('$' ∈ ("/" : String).data) := by decide
      have hB : ¬ ('$' ∈ ("." : String).data) := by decide
      have hC : ¬ ('$' ∈ ("pdf" : String).data) := by decide
      tauto
  · intro fmt hfmt
    have hne : ¬ pyLower fmt = ("pdf") := by
      fin_cases hfmt <;> decide
    have hpath : build_output_path folder pfx fmt =
        folder ++ "/" ++ (pfx ++ "_$(nnnn)." ++ fmt) := by
      rw [build_output_path, if_neg hne]
    constructor
    · have hre3 : build_output_path folder pfx fmt =
          (folder ++ "/" ++ pfx) ++ ("_$(nnnn)." ++ fmt) := by
        rw [hpath]
        simp [String.append_assoc]
      have hsub : charsContain (("_$(nnnn)." ++ fmt) : String).data
          (("$(nnnn)" : String).data) = true := rfl
      rw [strContains, hre3, String.data_append]
      exact charsContain_append_left _ hsub
    · have hre4 : build_output_path folder pfx fmt =
          (folder ++ "/" ++ (pfx ++ "_$(nnnn)")) ++ ("." ++ fmt) := by
        rw [hpath]
        apply String.ext
        simp only [String.data_append]
        simp [List.append_assoc]
      refine strEndsWith_intro _ _ ((folder ++ "/" ++ (pfx ++ "_$(nnnn)")).data) ?_
      rw [hre4, String.data_append]

/-- Witness for C2 at concrete inputs: the pdf path has no placeholder,
the png path does. -/
theorem build_output_path_spec_witness :
    strContains (build_output_path ("scans") ("page") ("pdf")) ("$(nnnn)") =
        false
    ∧ strContains (build_output_path ("scans") ("page") ("png")) ("$(nnnn)") =
        true :=
  ⟨((build_output_path_spec ("scans") ("page")).1.2.2 (by decide) (by decide)),
    ((build_output_path_spec ("scans") ("page")).2 ("png")
      (by decide)).1⟩

/-- Claim C5, counterexample: the argument parser accepts a DPI token of
`0` — the constructed request then carries the non-positive DPI `0`, so
non-positive DPI values are not rejected at the input boundary. -/
theorem dpi_positive_cex :
    dpi_arg_value (some ("0")) = some 0 ∧ ¬ ((0 : Int) > 0) := by
  refine ⟨by decide, by decide⟩

/-- Claim C5, amended: the parser converts the `--dpi` token with plain
integer conversion and performs no positivity (or any range) check — every
parseable integer, including zero and negatives, is accepted — and an
absent flag defaults to 300. -/
theorem dpi_accepts_any_int :
    dpi_arg_value none = some 300
    ∧ (∀ s n, parseIntLit s = some n → dpi_arg_value (some s) = some n) :=
  ⟨rfl, fun _ _ h => h⟩

/-- Witness for the amended C5: the negative token `-5` is accepted. -/
theorem dpi_accepts_any_int_witness :
    dpi_arg_value (some ("-5")) = some (-5) :=
  dpi_accepts_any_int.2 ("-5") (-5) (by decide)

/-- Claim C7: on success the summary enumerates exactly the files
matching `<prefix>*.<format>` in the output folder — its rows are a
permutation of the matching entries carrying `size / 1024` (whole
kibibytes) — and the printed names appear sorted. -/
theorem summary_sorted_exact (fc : Option (List FileEntry))
    (pfx fmt : String) :
    List.Sorted (· ≤ ·) ((show_scan_results fc pfx fmt).map Prod.fst)
    ∧ (show_scan_results fc pfx fmt).Perm
        ((globFiles (fc.getD []) (pfx ++ "*." ++ fmt)).map
          (fun f => (f.name, f.size / 1024))) := by
  constructor
  · simp only [show_scan_results, List.map_map]
    have hs : List.Sorted fileLe (List.insertionSort fileLe
        (globFiles (fc.getD []) (pfx ++ "*." ++ fmt))) :=
      List.sorted_insertionSort fileLe _
    exact List.Pairwise.map _ (fun a b h => h) hs
  · simp only [show_scan_results]
    exact (List.perm_insertionSort fileLe _).map _

/-- Claim C10: the file-existence check and the results summary agree on
the same file set — for any folder state, prefix and format, the check
returns true iff the summary over the identical glob pattern yields at
least one row. -/
theorem check_agrees_with_summary (fc : Option (List FileEntry))
    (pfx fmt : String) :
    check_for_scanned_files fc pfx fmt = true ↔
      show_scan_results fc pfx fmt ≠ [] := by
  cases fc with
  | none => simp [check_for_scanned_files, show_scan_results, globFiles]
  | some entries =>
    have hperm :=
      List.perm_insertionSort fileLe (globFiles entries (pfx ++ "*." ++ fmt))
    have hiff : List.insertionSort fileLe
        (globFiles entries (pfx ++ "*." ++ fmt)) = [] ↔
        globFiles entries (pfx ++ "*." ++ fmt) = [] := by
      constructor <;> intro hh
      · have hlen := hperm.length_eq
        rw [hh] at hlen
        exact List.length_eq_zero.mp hlen.symm
      · rw [hh]
        rfl
    simp [check_for_scanned_files, show_scan_results, List.length_pos,
      hiff]

/-- Claim C8: during scan execution exactly two stream-reading tasks run
(one per child stream), both are started before either is joined (they
overlap, scheduled within one gather), both are joined before the exit
code is collected — the exit-code collection is the last event and occurs
nowhere earlier — and each task echoes its lines tagged with its stream
origin ("NAPS2" for stdout, "ERROR" for stderr). -/
theorem stream_tasks_trace (env : Env) :
    ((executeScanTrace env).filter
        (fun e => match e with
          | ScanEvent.readerStart _ => true
          | _ => false)).length = 2
    ∧ (executeScanTrace env).getLast? =
        some (ScanEvent.exitCollected env.scanExit)
    ∧ (∀ c, ScanEvent.exitCollected c ∈ (executeScanTrace env).dropLast →
        False)
    ∧ ScanEvent.readerStart ("NAPS2") ∈ (executeScanTrace env).take 3
    ∧ ScanEvent.readerStart ("ERROR") ∈ (executeScanTrace env).take 3
    ∧ ScanEvent.readerJoin ("NAPS2") ∈
        ((executeScanTrace env).drop 3).dropLast
    ∧ ScanEvent.readerJoin ("ERROR") ∈
        ((executeScanTrace env).drop 3).dropLast
    ∧ (∀ out ∈ read_output env.scanStdoutLines ("NAPS2"),
        listStartsWith out.data (("NAPS2: " : String).data) = true)
    ∧ (∀ out ∈ read_output env.scanStderrLines ("ERROR"),
        listStartsWith out.data (("ERROR: " : String).data) = true) := by
  refine ⟨rfl, rfl, ?_, ?_, ?_, ?_, ?_, ?_, ?_⟩
  · intro c hc
    simp [executeScanTrace] at hc
  · simp [executeScanTrace]
  · simp [executeScanTrace]
  · simp [executeScanTrace]
  · simp [executeScanTrace]
  · intro out hout
    rw [read_output] at hout
    obtain ⟨line, _, hline⟩ := List.mem_map.mp hout
    have hdata : out.data =
        (("NAPS2: " : String).data) ++ (pyStrip line).data := by
      rw [← hline]
      rfl
    rw [hdata]
    exact listStartsWith_append _ _
  · intro out hout
    rw [read_output] at hout
    obtain ⟨line, _, hline⟩ := List.mem_map.mp hout
    have hdata : out.data =
        (("ERROR: " : String).data) ++ (pyStrip line).data := by
      rw [← hline]
      rfl
    rw [hdata]
    exact listStartsWith_append _ _

/-- Witness for C8 at a concrete environment. -/
theorem stream_tasks_trace_witness :
    ScanEvent.readerJoin ("NAPS2") ∈
      ((executeScanTrace envBase).drop 3).dropLast
    ∧ listStartsWith (("NAPS2: x" : String).data)
        (("NAPS2: " : String).data) = true :=
  ⟨(stream_tasks_trace envBase).2.2.2.2.2.1,
    (stream_tasks_trace { envBase with scanStdoutLines := [" x"] }).2.2.2.2.2.2.2.1
      ("NAPS2: x") (by decide)⟩

/-- Claim C9: whenever device resolution returns a device name, that name
is a non-empty string with no leading or trailing whitespace. -/
theorem device_name_trimmed_nonempty (env : Env) (driver name : String)
    (h : get_scanner_device env driver = some name) :
    name ≠ ("")
    ∧ (∀ c, name.data.head? = some c → ws c = false)
    ∧ (∀ c, name.data.getLast? = some c → ws c = false) := by
  cases henv : env.listError with
  | some e => simp [get_scanner_device, henv] at h
  | none =>
    simp only [get_scanner_device, henv] at h
    by_cases hcond : (env.listExit == 0 && !(env.listStdout == "")) = true
    · rw [if_pos hcond] at h
      by_cases hout : (!(pyStrip env.listStdout == "")) = true
      · rw [if_pos hout] at h
        have hname : name = pyStrip (firstLineStr (pyStrip env.listStdout)) :=
          (Option.some.inj h).symm
        have hne : stripChars env.listStdout.data ≠ [] := by
          intro hnil
          have hps : pyStrip env.listStdout = "" := by
            rw [pyStrip, hnil]
          simp [hps] at hout
        rcases hd : stripChars env.listStdout.data with _ | ⟨c0, t⟩
        · exact absurd hd hne
        · have hc0 : ws c0 = false := stripChars_head_not_ws hd
          have hq0 : (c0 != '\n') = true := not_ws_ne_newline hc0
          have hfl : (firstLineStr (pyStrip env.listStdout)).data =
              c0 :: t.takeWhile (fun c => c != '\n') := by
            rw [firstLineStr]
            show (pyStrip env.listStdout).data.takeWhile (fun c => c != '\n') =
              c0 :: t.takeWhile (fun c => c != '\n')
            rw [show (pyStrip env.listStdout).data =
              stripChars env.listStdout.data from rfl, hd]
            exact @List.takeWhile_cons_of_pos Char (fun c => c != '\n') c0 t hq0
          have hnd : name.data =
              stripChars (c0 :: t.takeWhile (fun c => c != '\n')) := by
            rw [hname, pyStrip]
            show stripChars (firstLineStr (pyStrip env.listStdout)).data = _
            rw [hfl]
          refine ⟨?_, ?_, ?_⟩
          · intro hnil
            have hdn : name.data = [] := by rw [hnil]
            rw [hnd] at hdn
            exact stripChars_ne_nil (List.mem_cons_self c0 _) hc0 hdn
          · intro c hc
            rw [hnd] at hc
            rcases hst : stripChars (c0 :: t.takeWhile (fun c => c != '\n'))
              with _ | ⟨a, as⟩
            · rw [hst] at hc
              cases hc
            · rw [hst] at hc
              have hca : a = c := Option.some.inj hc
              rw [← hca]
              exact stripChars_head_not_ws hst
          · intro c hc
            rw [hnd] at hc
            exact stripChars_last_not_ws hc
      · rw [if_neg hout] at h
        cases h
    · rw [if_neg hcond] at h
      cases h

/-- Witness for C9: the sample listing resolves to the trimmed non-empty
name `dev one`. -/
theorem device_name_trimmed_nonempty_witness :
    get_scanner_device envListSample ("wia") = some ("dev one")
    ∧ ("dev one" : String) ≠ ("") :=
  ⟨rfl,
    (device_name_trimmed_nonempty envListSample ("wia") ("dev one") rfl).1⟩

end Naps2Wrapper
